import Mathlib

/-!
Shallow embedding of the `circuitbreaker` Go package.

The breaker's state is a string in the source (`type circuitBreakerState =
string`), so it is a `String` here as well; the defensive `default` branch of
`Call` is therefore representable. Times and durations are modelled as `Int`
nanosecond counts: `time.Since(t)` at the moment `now` is `now - t`, and the Go
zero values of the untouched constructor fields are `0`.

The protected operation is opaque to the breaker; the only thing the breaker
observes of one call of it is what `runWithTimeout` sees: either the context
deadline fires first, or the operation's `(result, err)` pair arrives in time.
That observation is `OpOutcome`.  `Call cb o now` runs one call of the breaker
at time `now` against an operation whose observed outcome would be `o`; its
`invoked` field records whether the branch taken actually starts the operation
(the closed and half-open handlers run it, the open handler and the defensive
default never do).
-/

namespace Circuitbreaker

/-- The `closed` state constant of the source (`closed = "closed"`). -/
def closed : String := "closed"

/-- The `open` state constant of the source (`open = "open"`). -/
def «open» : String := "open"

/-- The `halfOpen` state constant of the source (`halfOpen = "half-open"`). -/
def halfOpen : String := "half-open"

/-- The `CircuitBreaker` struct: current state, mutable counters and the four
configuration fields.  `mu sync.Mutex` is omitted: `Call` holds it for its whole
body, so one call is one atomic step of this model. -/
structure CircuitBreaker where
  state : String
  failureCount : Int
  lastFailureTime : Int
  successCount : Int
  failureThreshold : Int
  recoveryTime : Int
  halfOpenThreshold : Int
  timeout : Int
deriving Repr, DecidableEq

/-- `NewCircuitBreaker`: state starts `closed`; `failureCount`, `successCount`
and `lastFailureTime` are Go zero values. -/
def NewCircuitBreaker (failureThreshold halfOpenThreshold : Int)
    (recoveryTime timeout : Int) : CircuitBreaker :=
  { state := closed
    failureCount := 0
    lastFailureTime := 0
    successCount := 0
    failureThreshold := failureThreshold
    recoveryTime := recoveryTime
    halfOpenThreshold := halfOpenThreshold
    timeout := timeout }

/-- What `runWithTimeout` observes of one execution of the operation `fn`:
either the `cb.timeout` context deadline fires before anything arrives on
`resChan`, or the operation's `Message{result, err}` arrives first.  `V` is the
type inhabiting the non-nil values of the Go `any` result, `E` the type
inhabiting non-nil operation errors; `none` is Go `nil`. -/
inductive OpOutcome (V E : Type) where
  | timeout
  | complete (result : Option V) (err : Option E)
deriving Repr, DecidableEq

/-- The errors a `Call` can return: the operation's own error forwarded by
`runWithTimeout`, the `"request timed out"` error, the `"open state; request
blocked"` error, and the defensive `"unknown state"` error carrying the state
string. -/
inductive CallError (E : Type) where
  | opError (e : E)
  | timedOut
  | openRejected
  | unknownState (s : String)
deriving Repr, DecidableEq

variable {V E : Type}

/-- `runWithTimeout`: on deadline, `(nil, "request timed out")`; otherwise it
returns the operation's pair `(res.result, res.err)` unchanged. -/
def runWithTimeout (o : OpOutcome V E) : Option V × Option (CallError E) :=
  match o with
  | .timeout => (none, some .timedOut)
  | .complete res err => (res, err.map CallError.opError)

/-- `processClosedState`: run the operation with timeout; on error increment
`failureCount`, stamp `lastFailureTime`, open the circuit once
`failureCount >= failureThreshold`, and return `(nil, err)`; on success return
`(res, nil)` with the breaker untouched. -/
def processClosedState (cb : CircuitBreaker) (o : OpOutcome V E) (now : Int) :
    CircuitBreaker × Option V × Option (CallError E) :=
  match runWithTimeout o with
  | (_, some e) =>
    let cb1 := { cb with failureCount := cb.failureCount + 1, lastFailureTime := now }
    let cb2 := if cb1.failureCount ≥ cb1.failureThreshold then { cb1 with state := «open» } else cb1
    (cb2, none, some e)
  | (res, none) => (cb, res, none)

/-- `resetCircuit`: zero `failureCount` and close the circuit.  (It does not
touch `successCount` in this source.) -/
def resetCircuit (cb : CircuitBreaker) : CircuitBreaker :=
  { cb with failureCount := 0, state := closed }

/-- `processOpenState`: if `time.Since(lastFailureTime) > recoveryTime`, go to
`half-open`, zero `halfOpenThreshold` and `failureCount`, and return
`(nil, nil)`; otherwise reject with the open-state error and no side effects.
(Note the source writes `cb.halfOpenThreshold = 0`, not `cb.successCount = 0`.) -/
def processOpenState (cb : CircuitBreaker) (now : Int) :
    CircuitBreaker × Option V × Option (CallError E) :=
  if now - cb.lastFailureTime > cb.recoveryTime then
    ({ cb with state := halfOpen, halfOpenThreshold := 0, failureCount := 0 }, none, none)
  else
    (cb, none, some .openRejected)

/-- `processHalfOpenState`: run the operation with timeout; on error reopen the
circuit, stamp `lastFailureTime` and return `(nil, err)`; on success increment
`successCount` and, once `successCount >= halfOpenThreshold`, `resetCircuit`,
returning `(res, nil)`. -/
def processHalfOpenState (cb : CircuitBreaker) (o : OpOutcome V E) (now : Int) :
    CircuitBreaker × Option V × Option (CallError E) :=
  match runWithTimeout o with
  | (_, some e) => ({ cb with state := «open», lastFailureTime := now }, none, some e)
  | (res, none) =>
    let cb1 := { cb with successCount := cb.successCount + 1 }
    let cb2 := if cb1.successCount ≥ cb1.halfOpenThreshold then resetCircuit cb1 else cb1
    (cb2, res, none)

/-- The value of one `Call`: the breaker after the call, the returned
`(result, error)` pair, and whether the taken branch starts the operation. -/
structure CallOutput (V E : Type) where
  cb : CircuitBreaker
  result : Option V
  err : Option (CallError E)
  invoked : Bool
deriving Repr, DecidableEq

/-- `Call`: dispatch on the current state string; the `default` branch of the
switch returns the defensive unknown-state error. -/
def Call (cb : CircuitBreaker) (o : OpOutcome V E) (now : Int) : CallOutput V E :=
  if cb.state = closed then
    ⟨(processClosedState cb o now).1, (processClosedState cb o now).2.1,
      (processClosedState cb o now).2.2, true⟩
  else if cb.state = «open» then
    ⟨(processOpenState (V := V) (E := E) cb now).1, (processOpenState (V := V) (E := E) cb now).2.1,
      (processOpenState (V := V) (E := E) cb now).2.2, false⟩
  else if cb.state = halfOpen then
    ⟨(processHalfOpenState cb o now).1, (processHalfOpenState cb o now).2.1,
      (processHalfOpenState cb o now).2.2, true⟩
  else
    ⟨cb, none, some (.unknownState cb.state), false⟩

/-- One `Call` whose operation completes in time and fails, keeping only the
breaker: the shape of every failing closed-state call. -/
def failingCall (cb : CircuitBreaker) (now : Int) : CircuitBreaker :=
  (Call cb (OpOutcome.complete (V := Unit) (E := Unit) none (some ())) now).cb

/-- The breaker after a sequence of failing calls at the given instants. -/
def failCalls (cb : CircuitBreaker) (nows : List Int) : CircuitBreaker :=
  nows.foldl failingCall cb

/-- The breakers reachable from a freshly constructed one by `Call` steps, for
operations of any result and error types and at any instants. -/
inductive Reachable : CircuitBreaker → Prop where
  | new (failureThreshold halfOpenThreshold recoveryTime timeout : Int) :
      Reachable (NewCircuitBreaker failureThreshold halfOpenThreshold recoveryTime timeout)
  | step {cb : CircuitBreaker} (V E : Type) (o : OpOutcome V E) (now : Int) :
      Reachable cb → Reachable (Call cb o now).cb

/-- An open breaker past its recovery window, with a configured
`halfOpenThreshold` of 2 and 5 recorded half-open successes. -/
def openElapsedCb : CircuitBreaker :=
  { state := «open», failureCount := 3, lastFailureTime := 0, successCount := 5,
    failureThreshold := 3, recoveryTime := 1, halfOpenThreshold := 2, timeout := 1 }

/-- A half-open breaker one success away from closing. -/
def halfOpenReadyCb : CircuitBreaker :=
  { state := halfOpen, failureCount := 0, lastFailureTime := 0, successCount := 0,
    failureThreshold := 1, recoveryTime := 1, halfOpenThreshold := 1, timeout := 1 }

/-- An open breaker with a 5-unit recovery window starting at time 0. -/
def openFreshCb : CircuitBreaker :=
  { state := «open», failureCount := 1, lastFailureTime := 0, successCount := 0,
    failureThreshold := 1, recoveryTime := 5, halfOpenThreshold := 2, timeout := 1 }

/-- A half-open breaker needing two successes to close. -/
def halfOpenProbingCb : CircuitBreaker :=
  { state := halfOpen, failureCount := 0, lastFailureTime := 0, successCount := 0,
    failureThreshold := 2, recoveryTime := 5, halfOpenThreshold := 2, timeout := 1 }

/-- A closed breaker that has already accumulated 7 failures. -/
def closedSevenCb : CircuitBreaker :=
  { state := closed, failureCount := 7, lastFailureTime := 0, successCount := 0,
    failureThreshold := 9, recoveryTime := 5, halfOpenThreshold := 2, timeout := 1 }

lemma open_ne_closed : («open» : String) ≠ closed := by decide

lemma halfOpen_ne_closed : (halfOpen : String) ≠ closed := by decide

lemma halfOpen_ne_open : (halfOpen : String) ≠ «open» := by decide

/-- C1: the claim says entering half-open resets `failureCount` and
`successCount` and leaves `halfOpenThreshold` unchanged.  The code instead
executes `cb.halfOpenThreshold = 0` and never touches `successCount`: on an
open breaker past its recovery window with `successCount = 5` and configured
`halfOpenThreshold = 2`, the call enters half-open with `successCount` still 5
and `halfOpenThreshold` overwritten to 0. -/
theorem c1_halfopen_entry_zeroes_threshold_not_successes :
    (Call openElapsedCb (OpOutcome.timeout : OpOutcome Unit Unit) 10).cb.state = halfOpen ∧
    (Call openElapsedCb (OpOutcome.timeout : OpOutcome Unit Unit) 10).cb.failureCount = 0 ∧
    (Call openElapsedCb (OpOutcome.timeout : OpOutcome Unit Unit) 10).cb.successCount = 5 ∧
    (Call openElapsedCb (OpOutcome.timeout : OpOutcome Unit Unit) 10).cb.halfOpenThreshold = 0 := by
  decide

/-- C2: the claim says closing from half-open resets both `failureCount` and
`successCount` to 0.  `resetCircuit` only zeroes `failureCount`: a successful
call on a half-open breaker with `halfOpenThreshold = 1` closes the circuit and
returns the result, but leaves `successCount` at 1. -/
theorem c2_close_from_halfopen_keeps_success_count :
    (Call halfOpenReadyCb (OpOutcome.complete (E := Unit) (some "OK") none) 10).cb.state = closed ∧
    (Call halfOpenReadyCb (OpOutcome.complete (E := Unit) (some "OK") none) 10).cb.failureCount = 0 ∧
    (Call halfOpenReadyCb (OpOutcome.complete (E := Unit) (some "OK") none) 10).cb.successCount = 1 ∧
    (Call halfOpenReadyCb (OpOutcome.complete (E := Unit) (some "OK") none) 10).result = some "OK" := by
  decide

/-- C4: a call on an open breaker within the recovery window returns the
open-state rejection error and no result, does not invoke the operation, and
leaves every breaker field unchanged. -/
theorem c4_open_within_recovery_rejects (cb : CircuitBreaker) (h : cb.state = «open»)
    (now : Int) (hrec : now - cb.lastFailureTime ≤ cb.recoveryTime)
    {V E : Type} (o : OpOutcome V E) :
    Call cb o now = ⟨cb, none, some CallError.openRejected, false⟩ := by
  unfold Call processOpenState
  rw [h, if_neg open_ne_closed, if_pos rfl, if_neg (not_lt.mpr hrec)]

theorem c4_witness :
    Call openFreshCb (OpOutcome.timeout : OpOutcome Unit Unit) 3 =
      ⟨openFreshCb, none, some CallError.openRejected, false⟩ :=
  c4_open_within_recovery_rejects openFreshCb rfl 3 (by decide) OpOutcome.timeout

/-- C5: a call on an open breaker strictly past the recovery window moves the
state to half-open, does not invoke the operation, and returns neither a result
nor an error. -/
theorem c5_open_past_recovery_goes_halfopen (cb : CircuitBreaker)
    (h : cb.state = «open») (now : Int)
    (hrec : cb.recoveryTime < now - cb.lastFailureTime)
    {V E : Type} (o : OpOutcome V E) :
    (Call cb o now).cb.state = halfOpen ∧ (Call cb o now).result = none ∧
      (Call cb o now).err = none ∧ (Call cb o now).invoked = false := by
  unfold Call processOpenState
  rw [h, if_neg open_ne_closed, if_pos rfl, if_pos hrec]
  exact ⟨rfl, rfl, rfl, rfl⟩

theorem c5_witness :
    (Call openFreshCb (OpOutcome.timeout : OpOutcome Unit Unit) 9).cb.state = halfOpen ∧
    (Call openFreshCb (OpOutcome.timeout : OpOutcome Unit Unit) 9).result = none ∧
    (Call openFreshCb (OpOutcome.timeout : OpOutcome Unit Unit) 9).err = none ∧
    (Call openFreshCb (OpOutcome.timeout : OpOutcome Unit Unit) 9).invoked = false :=
  c5_open_past_recovery_goes_halfopen openFreshCb rfl 9 (by decide) OpOutcome.timeout

/-- C6: a call on a closed breaker whose operation completes within the timeout
with no error returns the operation's result, invokes the operation, and leaves
every breaker field unchanged — in particular `failureCount` is not reset and
the state stays closed. -/
theorem c6_closed_success_changes_nothing (cb : CircuitBreaker) (h : cb.state = closed)
    (now : Int) {V E : Type} (r : Option V) :
    Call cb (OpOutcome.complete (E := E) r none) now = ⟨cb, r, none, true⟩ := by
  unfold Call
  rw [h, if_pos rfl]
  simp [processClosedState, runWithTimeout]

theorem c6_witness :
    Call closedSevenCb (OpOutcome.complete (E := Unit) (some "OK") none) 3 =
      ⟨closedSevenCb, some "OK", none, true⟩ :=
  c6_closed_success_changes_nothing closedSevenCb rfl 3 (some "OK")

/-- C7: a call on a half-open breaker whose operation fails or times out moves
the state back to open, stamps `lastFailureTime` with the call's instant, and
returns that error with no result. -/
theorem c7_halfopen_failure_reopens (cb : CircuitBreaker) (h : cb.state = halfOpen)
    (now : Int) {V E : Type} (o : OpOutcome V E) (e : CallError E)
    (ho : (runWithTimeout o).2 = some e) :
    Call cb o now =
      ⟨{ cb with state := «open», lastFailureTime := now }, none, some e, true⟩ := by
  unfold Call
  rw [h, if_neg halfOpen_ne_closed, if_neg halfOpen_ne_open, if_pos rfl]
  unfold processHalfOpenState
  rcases hro : runWithTimeout o with ⟨res, err⟩
  rw [hro] at ho
  simp only at ho
  subst ho
  rfl

theorem c7_witness :
    Call halfOpenProbingCb (OpOutcome.timeout : OpOutcome Unit Unit) 11 =
      ⟨{ halfOpenProbingCb with state := «open», lastFailureTime := 11 }, none,
        some CallError.timedOut, true⟩ :=
  c7_halfopen_failure_reopens halfOpenProbingCb rfl 11 OpOutcome.timeout
    CallError.timedOut rfl

/-- C10: whenever `Call` returns a non-nil error it returns a nil result, even
when the operation itself produced a partial result together with its error. -/
theorem c10_error_implies_no_result (cb : CircuitBreaker) {V E : Type}
    (o : OpOutcome V E) (now : Int) (h : (Call cb o now).err ≠ none) :
    (Call cb o now).result = none := by
  by_cases h1 : cb.state = closed
  · cases o with
    | timeout => simp [Call, h1, processClosedState, runWithTimeout]
    | complete r er =>
      cases er with
      | none => simp [Call, h1, processClosedState, runWithTimeout] at h
      | some e => simp [Call, h1, processClosedState, runWithTimeout]
  · by_cases h2 : cb.state = «open»
    · by_cases h3 : cb.recoveryTime < now - cb.lastFailureTime
      · simp [Call, h1, h2, open_ne_closed, processOpenState, h3]
      · simp [Call, h1, h2, open_ne_closed, processOpenState, h3]
    · by_cases h4 : cb.state = halfOpen
      · cases o with
        | timeout =>
          simp [Call, h1, h2, h4, halfOpen_ne_closed, halfOpen_ne_open,
            processHalfOpenState, runWithTimeout]
        | complete r er =>
          cases er with
          | none =>
            simp [Call, h1, h2, h4, halfOpen_ne_closed, halfOpen_ne_open,
              processHalfOpenState, runWithTimeout] at h
          | some e =>
            simp [Call, h1, h2, h4, halfOpen_ne_closed, halfOpen_ne_open,
              processHalfOpenState, runWithTimeout]
      · simp [Call, h1, h2, h4]

lemma closed_fail_step (cb : CircuitBreaker) (h : cb.state = closed)
    {V E : Type} (r : Option V) (e : E) (now : Int) :
    (Call cb (OpOutcome.complete r (some e)) now).cb =
      if cb.failureThreshold ≤ cb.failureCount + 1 then
        { cb with failureCount := cb.failureCount + 1, lastFailureTime := now, state := «open» }
      else
        { cb with failureCount := cb.failureCount + 1, lastFailureTime := now } := by
  simp [Call, h, processClosedState, runWithTimeout]

lemma failCalls_spec (nows : List Int) : ∀ (cb : CircuitBreaker), cb.state = closed →
    cb.failureCount + (nows.length : Int) ≤ cb.failureThreshold →
    (failCalls cb nows).failureCount = cb.failureCount + (nows.length : Int) ∧
    (failCalls cb nows).failureThreshold = cb.failureThreshold ∧
    (failCalls cb nows).state =
      (if cb.failureThreshold ≤ cb.failureCount + (nows.length : Int) ∧ nows ≠ []
        then «open» else closed) := by
  induction nows with
  | nil =>
    intro cb h hb
    refine ⟨by simp [failCalls], by simp [failCalls], ?_⟩
    simpa [failCalls] using h
  | cons now rest ih =>
    intro cb h hb
    have hstep : failingCall cb now =
        if cb.failureThreshold ≤ cb.failureCount + 1 then
          { cb with failureCount := cb.failureCount + 1, lastFailureTime := now, state := «open» }
        else
          { cb with failureCount := cb.failureCount + 1, lastFailureTime := now } :=
      closed_fail_step cb h none () now
    have hfold : failCalls cb (now :: rest) = failCalls (failingCall cb now) rest := rfl
    by_cases hth : cb.failureThreshold ≤ cb.failureCount + 1
    · have hlen : rest.length = 0 := by
        simp only [List.length_cons] at hb
        push_cast at hb
        omega
      have hrest : rest = [] := List.length_eq_zero.mp hlen
      subst hrest
      rw [hfold, hstep, if_pos hth]
      refine ⟨by simp [failCalls], by simp [failCalls], ?_⟩
      simp [failCalls, hth]
    · rw [hfold, hstep, if_neg hth]
      have h2 : ({ cb with failureCount := cb.failureCount + 1, lastFailureTime := now } : CircuitBreaker).state = closed := h
      have hb2 : ({ cb with failureCount := cb.failureCount + 1, lastFailureTime := now } : CircuitBreaker).failureCount + (rest.length : Int) ≤
          ({ cb with failureCount := cb.failureCount + 1, lastFailureTime := now } : CircuitBreaker).failureThreshold := by
        simp only [List.length_cons] at hb
        push_cast at hb ⊢
        omega
      obtain ⟨ihc, iht, ihs⟩ := ih _ h2 hb2
      refine ⟨?_, ?_, ?_⟩
      · rw [ihc]
        simp only [List.length_cons]
        push_cast
        ring
      · rw [iht]
      · rw [ihs]
        cases rest with
        | nil => simp [hth]
        | cons b t =>
          have hiff : (cb.failureThreshold ≤ cb.failureCount + 1 + ((b :: t).length : Int) ∧
              (b :: t) ≠ []) ↔
              (cb.failureThreshold ≤ cb.failureCount + (((now :: b :: t).length : Int)) ∧
              (now :: b :: t) ≠ []) := by
            simp only [List.length_cons, ne_eq, reduceCtorEq, not_false_iff, and_true]
            push_cast
            constructor <;> intro hx <;> omega
          simp only [hiff]

/-- C3: a failing call in the closed state increments `failureCount`, stamps
`lastFailureTime` with the call's instant, and opens the circuit exactly when
the incremented count reaches `failureThreshold`; consequently, from a fresh
breaker with threshold `k ≥ 1`, a sequence of at most `k` failing calls leaves
the count equal to the number of calls and the state open exactly when that
number is `k`, and still closed on every shorter sequence. -/
theorem c3_closed_opens_first_at_threshold (k hT rt tmo : Int) (hk : 1 ≤ k)
    (nows : List Int) (hl : (nows.length : Int) ≤ k) :
    ((failCalls (NewCircuitBreaker k hT rt tmo) nows).failureCount = (nows.length : Int) ∧
      (failCalls (NewCircuitBreaker k hT rt tmo) nows).state =
        (if (nows.length : Int) = k then «open» else closed)) ∧
    ∀ (cb : CircuitBreaker), cb.state = closed →
      ∀ (now : Int) (r : Option Unit) (e : Unit),
        (Call cb (OpOutcome.complete r (some e)) now).cb.failureCount = cb.failureCount + 1 ∧
        (Call cb (OpOutcome.complete r (some e)) now).cb.lastFailureTime = now ∧
        ((Call cb (OpOutcome.complete r (some e)) now).cb.state = «open» ↔
          cb.failureThreshold ≤ cb.failureCount + 1) := by
  constructor
  · have hb : (NewCircuitBreaker k hT rt tmo).failureCount + (nows.length : Int) ≤
        (NewCircuitBreaker k hT rt tmo).failureThreshold := by
      simpa [NewCircuitBreaker] using hl
    obtain ⟨hc, -, hs⟩ := failCalls_spec nows (NewCircuitBreaker k hT rt tmo) rfl hb
    refine ⟨by simpa [NewCircuitBreaker] using hc, ?_⟩
    rw [hs]
    have hiff : ((NewCircuitBreaker k hT rt tmo).failureThreshold ≤
        (NewCircuitBreaker k hT rt tmo).failureCount + (nows.length : Int) ∧ nows ≠ []) ↔
        ((nows.length : Int) = k) := by
      simp only [NewCircuitBreaker, ne_eq, ← List.length_eq_zero]
      constructor
      · rintro ⟨hx, hy⟩
        omega
      · intro hx
        constructor
        · omega
        · omega
    simp only [hiff]
  · intro cb h now r e
    rw [closed_fail_step cb h r e now]
    by_cases hth : cb.failureThreshold ≤ cb.failureCount + 1
    · rw [if_pos hth]
      exact ⟨rfl, rfl, by simpa using hth⟩
    · rw [if_neg hth]
      refine ⟨rfl, rfl, ?_⟩
      simp only [h]
      constructor
      · intro hx
        exact absurd hx.symm open_ne_closed
      · intro hx
        exact absurd hx hth

theorem c3_witness :
    ((failCalls (NewCircuitBreaker 2 1 1 1) [5, 9]).failureCount =
        ((([5, 9] : List Int).length : Int)) ∧
      (failCalls (NewCircuitBreaker 2 1 1 1) [5, 9]).state =
        (if ((([5, 9] : List Int).length : Int) = 2) then «open» else closed)) ∧
    ∀ (cb : CircuitBreaker), cb.state = closed →
      ∀ (now : Int) (r : Option Unit) (e : Unit),
        (Call cb (OpOutcome.complete r (some e)) now).cb.failureCount = cb.failureCount + 1 ∧
        (Call cb (OpOutcome.complete r (some e)) now).cb.lastFailureTime = now ∧
        ((Call cb (OpOutcome.complete r (some e)) now).cb.state = «open» ↔
          cb.failureThreshold ≤ cb.failureCount + 1) :=
  c3_closed_opens_first_at_threshold 2 1 1 1 (by decide) [5, 9] (by decide)

/-- C8: a timed-out call surfaces the timeout error from `runWithTimeout` with
no result, and in both the closed and the half-open state it drives exactly the
same breaker update as an operation that completes and reports a failure. -/
theorem c8_timeout_counts_as_failure (cb : CircuitBreaker) (now : Int)
    {V E : Type} (r : Option V) (e : E)
    (h : cb.state = closed ∨ cb.state = halfOpen) :
    (runWithTimeout (OpOutcome.timeout : OpOutcome V E)).2 = some CallError.timedOut ∧
    (Call cb (OpOutcome.timeout : OpOutcome V E) now).err = some CallError.timedOut ∧
    (Call cb (OpOutcome.timeout : OpOutcome V E) now).result = none ∧
    (Call cb (OpOutcome.timeout : OpOutcome V E) now).cb =
      (Call cb (OpOutcome.complete r (some e)) now).cb := by
  rcases h with h | h
  · exact ⟨rfl, by simp [Call, h, processClosedState, runWithTimeout],
      by simp [Call, h, processClosedState, runWithTimeout],
      by simp [Call, h, processClosedState, runWithTimeout]⟩
  · exact ⟨rfl,
      by simp [Call, h, halfOpen_ne_closed, halfOpen_ne_open, processHalfOpenState, runWithTimeout],
      by simp [Call, h, halfOpen_ne_closed, halfOpen_ne_open, processHalfOpenState, runWithTimeout],
      by simp [Call, h, halfOpen_ne_closed, halfOpen_ne_open, processHalfOpenState, runWithTimeout]⟩

theorem c8_witness :
    (runWithTimeout (OpOutcome.timeout : OpOutcome Unit Unit)).2 = some CallError.timedOut ∧
    (Call closedSevenCb (OpOutcome.timeout : OpOutcome Unit Unit) 4).err = some CallError.timedOut ∧
    (Call closedSevenCb (OpOutcome.timeout : OpOutcome Unit Unit) 4).result = none ∧
    (Call closedSevenCb (OpOutcome.timeout : OpOutcome Unit Unit) 4).cb =
      (Call closedSevenCb (OpOutcome.complete (none : Option Unit) (some ())) 4).cb :=
  c8_timeout_counts_as_failure closedSevenCb 4 none () (Or.inl rfl)

lemma call_state_mem (cb : CircuitBreaker)
    (h : cb.state = closed ∨ cb.state = «open» ∨ cb.state = halfOpen)
    {V E : Type} (o : OpOutcome V E) (now : Int) :
    (Call cb o now).cb.state = closed ∨ (Call cb o now).cb.state = «open» ∨
      (Call cb o now).cb.state = halfOpen := by
  rcases h with h | h | h
  · cases o with
    | timeout =>
      simp only [Call, h, if_pos, processClosedState, runWithTimeout]
      split_ifs <;> simp [h]
    | complete r er =>
      cases er with
      | none => simp [Call, h, processClosedState, runWithTimeout]
      | some e =>
        simp only [Call, h, if_pos, processClosedState, runWithTimeout]
        split_ifs <;> simp [h]
  · by_cases hrec : cb.recoveryTime < now - cb.lastFailureTime <;>
      simp [Call, h, open_ne_closed, processOpenState, hrec]
  · cases o with
    | timeout =>
      simp [Call, h, halfOpen_ne_closed, halfOpen_ne_open, processHalfOpenState, runWithTimeout]
    | complete r er =>
      cases er with
      | none =>
        simp [Call, h, halfOpen_ne_closed, halfOpen_ne_open, processHalfOpenState,
          runWithTimeout]
        split_ifs <;> simp [resetCircuit, h]
      | some e =>
        simp [Call, h, halfOpen_ne_closed, halfOpen_ne_open, processHalfOpenState, runWithTimeout]

lemma call_err_ne_unknown (cb : CircuitBreaker)
    (h : cb.state = closed ∨ cb.state = «open» ∨ cb.state = halfOpen)
    {V E : Type} (o : OpOutcome V E) (now : Int) (s : String) :
    (Call cb o now).err ≠ some (CallError.unknownState s) := by
  rcases h with h | h | h
  · cases o with
    | timeout => simp [Call, h, processClosedState, runWithTimeout]
    | complete r er =>
      cases er with
      | none => simp [Call, h, processClosedState, runWithTimeout]
      | some e => simp [Call, h, processClosedState, runWithTimeout]
  · by_cases hrec : cb.recoveryTime < now - cb.lastFailureTime <;>
      simp [Call, h, open_ne_closed, processOpenState, hrec]
  · cases o with
    | timeout =>
      simp [Call, h, halfOpen_ne_closed, halfOpen_ne_open, processHalfOpenState, runWithTimeout]
    | complete r er =>
      cases er with
      | none =>
        simp [Call, h, halfOpen_ne_closed, halfOpen_ne_open, processHalfOpenState, runWithTimeout]
      | some e =>
        simp [Call, h, halfOpen_ne_closed, halfOpen_ne_open, processHalfOpenState, runWithTimeout]

/-- C9: every breaker reachable from a freshly constructed one by `Call` steps
has state `closed`, `open` or `half-open`, and a `Call` on it never returns the
defensive unknown-state error. -/
theorem c9_reachable_states_valid (cb : CircuitBreaker) (h : Reachable cb) :
    (cb.state = closed ∨ cb.state = «open» ∨ cb.state = halfOpen) ∧
    ∀ (V E : Type) (o : OpOutcome V E) (now : Int) (s : String),
      (Call cb o now).err ≠ some (CallError.unknownState s) := by
  have hmem : cb.state = closed ∨ cb.state = «open» ∨ cb.state = halfOpen := by
    induction h with
    | new a b c d => exact Or.inl rfl
    | step V E o now hr ih => exact call_state_mem _ ih o now
  exact ⟨hmem, fun V E o now s => call_err_ne_unknown cb hmem o now s⟩

theorem c9_witness :
    ((NewCircuitBreaker 1 1 1 1).state = closed ∨
      (NewCircuitBreaker 1 1 1 1).state = «open» ∨
      (NewCircuitBreaker 1 1 1 1).state = halfOpen) ∧
    ∀ (V E : Type) (o : OpOutcome V E) (now : Int) (s : String),
      (Call (NewCircuitBreaker 1 1 1 1) o now).err ≠ some (CallError.unknownState s) :=
  c9_reachable_states_valid (NewCircuitBreaker 1 1 1 1) (Reachable.new 1 1 1 1)

theorem c10_witness :
    (Call halfOpenProbingCb
        (OpOutcome.complete (some "partial") (some "boom")) 3).result = none :=
  c10_error_implies_no_result halfOpenProbingCb
    (OpOutcome.complete (some "partial") (some "boom")) 3 (by decide)

end Circuitbreaker
